import Mathlib

/-!
# Verification of the midcurve-shared fixed-point math engine

This file gives a shallow embedding, in Lean 4, of the Uniswap-V3 style
fixed-point math utilities of the repository: liquidity/token-amount
conversions, investment sizing, fee-growth accounting, price/tick
conversions, and PnL-curve generation.  JavaScript `bigint` values that are
non-negative throughout (liquidity, sqrt prices, token amounts, fee-growth
accumulators) are modelled as `Nat`; signed quantities (ticks, PnL, raw
price arguments) as `Int`.  JavaScript `bigint` division truncates toward
zero; on non-negative operands that is `Nat` division, and for signed
operands we use `Int.tdiv`.  Fallible code (a `throw`) is modelled with
`Except String`.

External collaborators (@uniswap/v3-sdk tick math, JSBI) and the
repository's `mulDiv` helper (whose source file is not part of the
embedded sources) are modelled from the specification; each such
definition carries a doc comment starting with `Modelled from the spec:`.
-/

set_option maxRecDepth 100000

set_option maxHeartbeats 8000000

/-! ## Constants (src/utils/uniswapv3/constants.ts) -/

def Q96 : Nat := 2 ^ 96

def Q128 : Nat := 2 ^ 128

def Q192 : Nat := 2 ^ 192

/-! ## Arithmetic helpers -/

/-- Modelled from the spec: the repository imports `mulDiv` from a math
module whose source is not among the embedded files.  Per the spec
(§4.2), each single-token formula performs its terminal division with
floor rounding when `roundUp` is false, so `mulDiv a b d` is the floor of
`a * b / d`. -/
def mulDiv (a b d : Nat) : Nat := a * b / d

/-! ## Liquidity conversions (src/utils/evm/address.ts, liquidity part) -/

structure TokenAmounts where
  token0Amount : Nat
  token1Amount : Nat
  deriving Repr, DecidableEq

def getAmount0FromLiquidity (sqrtPriceLower sqrtPriceUpper liquidity : Nat)
    (roundUp : Bool) : Nat :=
  if sqrtPriceUpper ≤ sqrtPriceLower ∨ liquidity = 0 then 0
  else
    let numerator1 := liquidity * (sqrtPriceUpper - sqrtPriceLower)
    let denominator := sqrtPriceUpper * sqrtPriceLower
    if roundUp then
      let product := numerator1 * Q96
      if product % denominator = 0 then product / denominator
      else product / denominator + 1
    else mulDiv numerator1 Q96 denominator

def getAmount1FromLiquidity (sqrtPriceLower sqrtPriceUpper liquidity : Nat)
    (roundUp : Bool) : Nat :=
  if sqrtPriceUpper ≤ sqrtPriceLower ∨ liquidity = 0 then 0
  else
    let delta := sqrtPriceUpper - sqrtPriceLower
    if roundUp then
      let product := liquidity * delta
      if product % Q96 = 0 then product / Q96 else product / Q96 + 1
    else mulDiv liquidity delta Q96

def getLiquidityFromAmount0 (sqrtPriceLower sqrtPriceUpper amount0 : Nat)
    (roundUp : Bool) : Nat :=
  if sqrtPriceUpper ≤ sqrtPriceLower ∨ amount0 = 0 then 0
  else
    let delta := sqrtPriceUpper - sqrtPriceLower
    let numerator := amount0 * (sqrtPriceLower * sqrtPriceUpper)
    let denominator := Q96 * delta
    if roundUp then (numerator + denominator - 1) / denominator
    else numerator / denominator

def getLiquidityFromAmount1 (sqrtPriceLower sqrtPriceUpper amount1 : Nat)
    (roundUp : Bool) : Nat :=
  if sqrtPriceUpper ≤ sqrtPriceLower ∨ amount1 = 0 then 0
  else
    let delta := sqrtPriceUpper - sqrtPriceLower
    let numerator := amount1 * Q96
    let denominator := delta
    if roundUp then (numerator + denominator - 1) / denominator
    else numerator / denominator

def getTokenAmountsFromLiquidity_X96 (liquidity sqrtPriceCurrentX96
    sqrtPriceLowerX96 sqrtPriceUpperX96 : Nat) (roundUp : Bool) :
    TokenAmounts :=
  if liquidity = 0 then ⟨0, 0⟩
  else if sqrtPriceCurrentX96 ≤ sqrtPriceLowerX96 then
    ⟨getAmount0FromLiquidity sqrtPriceLowerX96 sqrtPriceUpperX96 liquidity roundUp, 0⟩
  else if sqrtPriceUpperX96 ≤ sqrtPriceCurrentX96 then
    ⟨0, getAmount1FromLiquidity sqrtPriceLowerX96 sqrtPriceUpperX96 liquidity roundUp⟩
  else
    ⟨getAmount0FromLiquidity sqrtPriceCurrentX96 sqrtPriceUpperX96 liquidity roundUp,
     getAmount1FromLiquidity sqrtPriceLowerX96 sqrtPriceCurrentX96 liquidity roundUp⟩

def getLiquidityFromTokenAmounts_X96 (sqrtPriceCurrentX96 sqrtPriceLowerX96
    sqrtPriceUpperX96 token0Amount token1Amount : Nat) : Nat :=
  if sqrtPriceCurrentX96 ≤ sqrtPriceLowerX96 then
    getLiquidityFromAmount0 sqrtPriceLowerX96 sqrtPriceUpperX96 token0Amount false
  else if sqrtPriceUpperX96 ≤ sqrtPriceCurrentX96 then
    getLiquidityFromAmount1 sqrtPriceLowerX96 sqrtPriceUpperX96 token1Amount false
  else
    let liquidity0 :=
      getLiquidityFromAmount0 sqrtPriceCurrentX96 sqrtPriceUpperX96 token0Amount false
    let liquidity1 :=
      getLiquidityFromAmount1 sqrtPriceLowerX96 sqrtPriceCurrentX96 token1Amount false
    if liquidity0 < liquidity1 then liquidity0 else liquidity1

/-! ## Investment sizing (src/utils/evm/address.ts) -/

def totalBudgetInQuote (baseAmount quoteAmount : Nat) (isQuoteToken0 : Bool)
    (S : Nat) : Nat :=
  let baseAsQuote :=
    if isQuoteToken0 then baseAmount * Q192 / (S * S)
    else baseAmount * S * S / Q192
  quoteAmount + baseAsQuote

def quoteToToken0 (amountQuoteToken1 S : Nat) : Nat :=
  amountQuoteToken1 * Q192 / (S * S)

def token0ToQuoteToken1 (amountQuoteToken0 S : Nat) : Nat :=
  amountQuoteToken0 * S * S / Q192

def K_Q96_inToken1 (B A S : Nat) : Nat :=
  if S ≤ B then 0
  else if A ≤ S then 0
  else
    let term1 := S - B
    let term2 := S * (A - S) / A
    term1 + term2

def K_Q96_inToken0 (B A S : Nat) : Nat :=
  if S ≤ B then 0
  else if A ≤ S then 0
  else
    let termA := Q192 * (A - S) / (A * S)
    let termB := Q192 * (S - B) / (S * S)
    termA + termB

def getLiquidityFromInvestmentAmounts (baseAmount : Nat) (_baseDecimals : Nat)
    (quoteAmount : Nat) (_quoteDecimals : Nat) (isQuoteToken0 : Bool)
    (sqrtPriceLowerX96 sqrtPriceUpperX96 sqrtPriceCurrentX96 : Nat) : Nat :=
  if baseAmount = 0 ∧ quoteAmount = 0 then 0
  else
    let A := if sqrtPriceLowerX96 < sqrtPriceUpperX96 then sqrtPriceUpperX96
             else sqrtPriceLowerX96
    let B := if sqrtPriceLowerX96 < sqrtPriceUpperX96 then sqrtPriceLowerX96
             else sqrtPriceUpperX96
    let S := sqrtPriceCurrentX96
    if S ≤ B then
      let totalBudgetQuote := totalBudgetInQuote baseAmount quoteAmount isQuoteToken0 S
      let amount0 := if isQuoteToken0 then totalBudgetQuote
                     else quoteToToken0 totalBudgetQuote S
      getLiquidityFromAmount0 B A amount0 false
    else if A ≤ S then
      let totalBudgetQuote := totalBudgetInQuote baseAmount quoteAmount isQuoteToken0 S
      let amount1 := if isQuoteToken0 then token0ToQuoteToken1 totalBudgetQuote S
                     else totalBudgetQuote
      getLiquidityFromAmount1 B A amount1 false
    else
      let budgetQuote := totalBudgetInQuote baseAmount quoteAmount isQuoteToken0 S
      let K := if isQuoteToken0 then K_Q96_inToken0 B A S else K_Q96_inToken1 B A S
      if K = 0 then 0 else budgetQuote * Q96 / K

/-! ## Fee growth accounting (src/utils/uniswapv3/fees.ts) -/

def safeDiff (a b : Nat) : Nat := if b ≤ a then a - b else 0

structure FeeGrowthInside where
  inside0 : Nat
  inside1 : Nat
  deriving Repr, DecidableEq

def computeFeeGrowthInside (tickCurrent tickLower tickUpper : Int)
    (feeGrowthGlobal0 feeGrowthGlobal1 feeGrowthOutsideLower0
     feeGrowthOutsideLower1 feeGrowthOutsideUpper0 feeGrowthOutsideUpper1 : Nat) :
    FeeGrowthInside :=
  let below0 :=
    if tickLower ≤ tickCurrent then feeGrowthOutsideLower0
    else safeDiff feeGrowthGlobal0 feeGrowthOutsideLower0
  let below1 :=
    if tickLower ≤ tickCurrent then feeGrowthOutsideLower1
    else safeDiff feeGrowthGlobal1 feeGrowthOutsideLower1
  let above0 :=
    if tickCurrent < tickUpper then feeGrowthOutsideUpper0
    else safeDiff feeGrowthGlobal0 feeGrowthOutsideUpper0
  let above1 :=
    if tickCurrent < tickUpper then feeGrowthOutsideUpper1
    else safeDiff feeGrowthGlobal1 feeGrowthOutsideUpper1
  let inside0 := safeDiff (safeDiff feeGrowthGlobal0 below0) above0
  let inside1 := safeDiff (safeDiff feeGrowthGlobal1 below1) above1
  ⟨inside0, inside1⟩

/-! ## Position phase and PnL (src/unnamed/part_000) -/

inductive PositionPhase where
  | below
  | inRange
  | above
  deriving Repr, DecidableEq

/-- Numeric index of a phase along the price axis: below < in-range < above. -/
def phaseIdx : PositionPhase → Nat
  | .below => 0
  | .inRange => 1
  | .above => 2

def determinePhase (tickCurrent tickLower tickUpper : Int) : PositionPhase :=
  if tickCurrent < tickLower then .below
  else if tickUpper ≤ tickCurrent then .above
  else .inRange

def calculatePnL (currentValue costBasis : Int) : Int × Rat :=
  let pnl := currentValue - costBasis
  let pnlPercent : Rat :=
    if 0 < costBasis then (((pnl * 10000).tdiv costBasis : Int) : Rat) / 100 else 0
  (pnl, pnlPercent)

/-! ## Verified bounded search machinery

Used to realize, computably, the integer square root and the floor-tick
lookup of the spec-modelled external tick-math collaborator. -/

/-- Fast binary exponentiation, structural in a fuel argument so that the
kernel can evaluate it at large exponents. -/
def binPow : Nat → Nat → Nat → Nat
  | 0, _, _ => 1
  | f+1, b, e =>
      if e = 0 then 1
      else
        let h := binPow f (b * b) (e / 2)
        if e % 2 = 1 then b * h else h

/-- Base-2 logarithm via repeated halving, structural in a fuel argument. -/
def log2fuel : Nat → Nat → Nat
  | 0, _ => 0
  | f+1, n => if n ≤ 1 then 0 else log2fuel f (n / 2) + 1

def log2M (n : Nat) : Nat := log2fuel n n

/-- Binary search for the greatest point where a downward-closed Boolean
predicate still holds, given a bracketing pair. -/
def bsearchGreatest (Q : Nat → Bool) : Nat → Nat → Nat → Nat
  | 0, lo, _ => lo
  | f+1, lo, hi =>
      if hi ≤ lo + 1 then lo
      else
        let m := (lo + hi) / 2
        if Q m then bsearchGreatest Q f m hi else bsearchGreatest Q f lo m

/-- Exponential search upward from `c` for a point where `Q` fails,
saturating at `U`. -/
def gallopUp (Q : Nat → Bool) (U c : Nat) : Nat → Nat → Nat
  | 0, _ => U
  | f+1, step =>
      let p := min (c + step) U
      if Q p then (if U ≤ p then U else gallopUp Q U c f (2 * step)) else p

/-- Exponential search downward from `c` for a point where `Q` holds,
saturating at `0`. -/
def gallopDown (Q : Nat → Bool) (c : Nat) : Nat → Nat → Nat
  | 0, _ => 0
  | f+1, step =>
      let p := c - step
      if Q p then p else (if p = 0 then 0 else gallopDown Q c f (2 * step))

/-- Greatest `u ≤ U` satisfying a downward-closed predicate `Q`, found by
galloping from the center `c` followed by binary search; returns `0` when
`Q` holds nowhere. -/
def findGreatest (Q : Nat → Bool) (U c fuel : Nat) : Nat :=
  if Q c then
    let hi := gallopUp Q U c fuel 1
    if Q hi then hi else bsearchGreatest Q fuel c hi
  else
    let lo := gallopDown Q c fuel 1
    if Q lo then bsearchGreatest Q fuel lo c else 0

/-- Integer square root (greatest `m` with `m * m ≤ n`), computable by the
verified bounded search. -/
def sqrtModel (n : Nat) : Nat :=
  findGreatest (fun m => m * m ≤ n) (2 ^ (log2M n / 2 + 1)) (2 ^ (log2M n / 2))
    (log2M n + 2)

/-! ## Spec-modelled external tick math (@uniswap/v3-sdk)

The repository calls `TickMath.getSqrtRatioAtTick`,
`TickMath.getTickAtSqrtRatio`, `encodeSqrtRatioX96` and
`nearestUsableTick` from the external @uniswap/v3-sdk package, whose code
is not part of this repository. -/

def MIN_TICK : Int := -887272

def MAX_TICK : Int := 887272

/-- Modelled from the spec: `tickToSqrtPrice(tick)` is the "direct formula
`1.0001^(tick/2)` realized in fixed point" (§4.1), i.e. the integer square
root of `1.0001^tick` scaled by `2^192`, with the negative-tick side
realized by inverting the rational `10001/10000`. -/
def getSqrtRatioAtTick (t : Int) : Nat :=
  if 0 ≤ t then
    sqrtModel (2 ^ 192 * binPow (t.toNat + 1) 10001 t.toNat /
      binPow (t.toNat + 1) 10000 t.toNat)
  else
    sqrtModel (2 ^ 192 * binPow ((-t).toNat + 1) 10000 (-t).toNat /
      binPow ((-t).toNat + 1) 10001 (-t).toNat)

/-- Modelled from the spec: `priceToTick` "take[s] the floor tick at that
SqrtPrice" (§4.1); the floor tick is the greatest valid tick whose sqrt
ratio does not exceed the argument, with out-of-range values clamped to
the boundary ticks (§4.1 failure conditions). The search runs over the
shifted tick domain `[0, 2*887272]`. -/
def getTickAtSqrtRatio (x : Nat) : Int :=
  (findGreatest (fun u => getSqrtRatioAtTick ((u : Int) - 887272) ≤ x)
    1774544 887272 21 : Int) - 887272

/-- Modelled from the spec: the SDK's `encodeSqrtRatioX96(amount1, amount0)`
returns the integer square root of the Q192-scaled ratio `amount1/amount0`
(§4.1 "convert to SqrtPrice via the same encoding used by tick lookup"). -/
def encodeSqrtRatioX96 (amount1 amount0 : Nat) : Nat :=
  sqrtModel (amount1 * 2 ^ 192 / amount0)

/-- Modelled from the spec: the SDK's `nearestUsableTick` snaps "to the
nearest multiple of `tickSpacing`" (§4.1), rounding half up as JavaScript's
`Math.round` does, then moves a result outside `[MIN_TICK, MAX_TICK]` back
inside by one spacing. -/
def nearestUsableTick (tick tickSpacing : Int) : Int :=
  let rounded := (Int.fdiv (2 * tick + tickSpacing) (2 * tickSpacing)) * tickSpacing
  if rounded < MIN_TICK then rounded + tickSpacing
  else if MAX_TICK < rounded then rounded - tickSpacing
  else rounded

/-! ## Price conversions (src/unnamed/part_001) -/

def priceToSqrtRatioX96 (baseTokenAddress quoteTokenAddress : Nat)
    (baseTokenDecimals : Nat) (price : Int) : Except String Nat :=
  if price ≤ 0 then .error "price must be a positive bigint"
  else
    let baseIsToken0 := baseTokenAddress < quoteTokenAddress
    let amount0 := if baseIsToken0 then 10 ^ baseTokenDecimals else price.toNat
    let amount1 := if baseIsToken0 then price.toNat else 10 ^ baseTokenDecimals
    .ok (encodeSqrtRatioX96 amount1 amount0)

def tickToSqrtRatioX96 (tick : Int) : Nat := getSqrtRatioAtTick tick

def priceToTick (price : Int) (tickSpacing : Int)
    (baseTokenAddress quoteTokenAddress : Nat) (baseTokenDecimals : Nat) :
    Except String Int := do
  let sqrt ← priceToSqrtRatioX96 baseTokenAddress quoteTokenAddress
    baseTokenDecimals price
  let tickFloor := getTickAtSqrtRatio sqrt
  pure (nearestUsableTick tickFloor tickSpacing)

def priceToClosestUsableTick (price : Int) (tickSpacing : Int)
    (baseTokenAddress quoteTokenAddress : Nat) (baseTokenDecimals : Nat) :
    Except String Int := do
  let sqrt ← priceToSqrtRatioX96 baseTokenAddress quoteTokenAddress
    baseTokenDecimals price
  let t0 := getTickAtSqrtRatio sqrt
  if MAX_TICK ≤ t0 then pure (nearestUsableTick MAX_TICK tickSpacing)
  else if t0 ≤ MIN_TICK then pure (nearestUsableTick MIN_TICK tickSpacing)
  else
    let s0 := getSqrtRatioAtTick t0
    let s1 := getSqrtRatioAtTick (t0 + 1)
    let d0 := if s0 ≤ sqrt then sqrt - s0 else s0 - sqrt
    let d1 := if sqrt ≤ s1 then s1 - sqrt else sqrt - s1
    pure (nearestUsableTick (if d0 < d1 then t0 else t0 + 1) tickSpacing)

/-! ## Position valuation and the PnL curve
(src/utils/evm/address.ts `calculatePositionValue`, src/unnamed/part_000) -/

def getTokenAmountsFromLiquidity (liquidity sqrtPriceCurrentX96 : Nat)
    (tickLower tickUpper : Int) (roundUp : Bool) : TokenAmounts :=
  getTokenAmountsFromLiquidity_X96 liquidity sqrtPriceCurrentX96
    (getSqrtRatioAtTick tickLower) (getSqrtRatioAtTick tickUpper) roundUp

/-- `calculatePositionValue` from the source; `currentPrice` is only ever
used after `priceToTick` has rejected non-positive prices, so it is taken
here as a `Nat`. -/
def calculatePositionValue (liquidity sqrtPriceCurrentX96 : Nat)
    (tickLower tickUpper : Int) (currentPrice : Nat) (baseIsToken0 : Bool)
    (baseDecimals : Nat) : Nat :=
  if liquidity = 0 then 0
  else
    let amounts := getTokenAmountsFromLiquidity liquidity sqrtPriceCurrentX96
      tickLower tickUpper false
    if baseIsToken0 then
      amounts.token0Amount * currentPrice / 10 ^ baseDecimals + amounts.token1Amount
    else
      amounts.token0Amount + amounts.token1Amount * currentPrice / 10 ^ baseDecimals

structure PnLPoint where
  price : Int
  positionValue : Nat
  pnl : Int
  pnlPercent : Rat
  phase : PositionPhase
  deriving Repr, DecidableEq

def generatePnLCurve (liquidity : Nat) (tickLower tickUpper : Int)
    (costBasis : Int) (baseTokenAddress quoteTokenAddress : Nat)
    (baseTokenDecimals : Nat) (tickSpacing : Int)
    (priceRangeMin priceRangeMax : Int) (numPoints : Nat) :
    Except String (List PnLPoint) :=
  let priceStep := (priceRangeMax - priceRangeMin).tdiv (numPoints : Int)
  let baseIsToken0 := baseTokenAddress < quoteTokenAddress
  (List.range (numPoints + 1)).mapM (fun (i : Nat) => do
    let price := priceRangeMin + (i : Int) * priceStep
    let tick ← priceToTick price tickSpacing baseTokenAddress quoteTokenAddress
      baseTokenDecimals
    let sqrtPriceX96 := getSqrtRatioAtTick tick
    let positionValue := calculatePositionValue liquidity sqrtPriceX96
      tickLower tickUpper price.toNat baseIsToken0 baseTokenDecimals
    let pq := calculatePnL (positionValue : Int) costBasis
    let phase := determinePhase tick tickLower tickUpper
    pure { price := price, positionValue := positionValue, pnl := pq.1,
           pnlPercent := pq.2, phase := phase })

/-! ## Claim-side formulas (stated from the specification text) -/

/-- Terminal division with selectable rounding: ceiling when `roundUp` is
true, floor otherwise. -/
def divRound (n d : Nat) (roundUp : Bool) : Nat :=
  if roundUp then (n + d - 1) / d else n / d

/-- The claimed single-token formula
`amount0 = liquidity * (high - low) * 2^96 / (high * low)`. -/
def amount0Claim (liquidity low high : Nat) (roundUp : Bool) : Nat :=
  divRound (liquidity * (high - low) * Q96) (high * low) roundUp

/-- The claimed single-token formula
`amount1 = liquidity * (high - low) / 2^96`. -/
def amount1Claim (liquidity low high : Nat) (roundUp : Bool) : Nat :=
  divRound (liquidity * (high - low)) Q96 roundUp

/-- The claimed floor-rounded liquidity from a token0 amount over
`[low, high]`. -/
def liquidityFromAmount0Claim (amount0 low high : Nat) : Nat :=
  if high ≤ low then 0 else amount0 * (low * high) / (Q96 * (high - low))

/-- The claimed floor-rounded liquidity from a token1 amount over
`[low, high]`. -/
def liquidityFromAmount1Claim (amount1 low high : Nat) : Nat :=
  if high ≤ low then 0 else amount1 * Q96 / (high - low)

/-- The claimed in-range constant when the quote token is token1:
`K = (S - B) + floor(S * (A - S) / A)`. -/
def K_inToken1Claim (B A S : Nat) : Nat := (S - B) + S * (A - S) / A

/-- The claimed in-range constant when the quote token is token0:
`K = floor(2^192 * (A - S) / (A * S)) + floor(2^192 * (S - B) / S^2)`. -/
def K_inToken0Claim (B A S : Nat) : Nat :=
  Q192 * (A - S) / (A * S) + Q192 * (S - B) / (S * S)

/-- The claimed per-token fee-growth-inside composition. -/
def insideClaim (tickCurrent tickLower tickUpper : Int) (growthGlobal
    growthOutsideLower growthOutsideUpper : Nat) : Nat :=
  let below := if tickLower ≤ tickCurrent then growthOutsideLower
               else safeDiff growthGlobal growthOutsideLower
  let above := if tickCurrent < tickUpper then growthOutsideUpper
               else safeDiff growthGlobal growthOutsideUpper
  safeDiff (safeDiff growthGlobal below) above

/-- The closed form of the PnL-curve point generated at sample index `i`. -/
def pnlPointAt (liquidity : Nat) (tickLower tickUpper : Int) (costBasis : Int)
    (baseTokenAddress quoteTokenAddress baseTokenDecimals : Nat)
    (tickSpacing : Int) (priceRangeMin priceRangeMax : Int) (numPoints : Nat)
    (i : Nat) : PnLPoint :=
  let priceStep := (priceRangeMax - priceRangeMin).tdiv (numPoints : Int)
  let price := priceRangeMin + (i : Int) * priceStep
  let tick := nearestUsableTick (getTickAtSqrtRatio (encodeSqrtRatioX96
      (if baseTokenAddress < quoteTokenAddress then price.toNat
        else 10 ^ baseTokenDecimals)
      (if baseTokenAddress < quoteTokenAddress then 10 ^ baseTokenDecimals
        else price.toNat))) tickSpacing
  let sqrtPriceX96 := getSqrtRatioAtTick tick
  let positionValue := calculatePositionValue liquidity sqrtPriceX96 tickLower
    tickUpper price.toNat (baseTokenAddress < quoteTokenAddress) baseTokenDecimals
  let pq := calculatePnL (positionValue : Int) costBasis
  { price := price, positionValue := positionValue, pnl := pq.1,
    pnlPercent := pq.2, phase := determinePhase tick tickLower tickUpper }

/-- The tick backing the PnL-curve point at sample index `i`. -/
def curveTickAt (baseTokenAddress quoteTokenAddress baseTokenDecimals : Nat)
    (tickSpacing : Int) (priceRangeMin priceRangeMax : Int) (numPoints i : Nat) :
    Int :=
  let price := priceRangeMin + (i : Int) *
    (priceRangeMax - priceRangeMin).tdiv (numPoints : Int)
  nearestUsableTick (getTickAtSqrtRatio (encodeSqrtRatioX96
    (if baseTokenAddress < quoteTokenAddress then price.toNat
      else 10 ^ baseTokenDecimals)
    (if baseTokenAddress < quoteTokenAddress then 10 ^ baseTokenDecimals
      else price.toNat))) tickSpacing

/-! ## Helper lemmas -/

theorem q96_pos : 0 < Q96 := by
  unfold Q96; exact Nat.pos_pow_of_pos 96 (by decide)

theorem ceil_div_eq_add_pred_div (n d : Nat) (hd : 0 < d) :
    (if n % d = 0 then n / d else n / d + 1) = (n + d - 1) / d := by
  have hdm := Nat.div_add_mod n d
  have hmlt : n % d < d := Nat.mod_lt _ hd
  by_cases hmod : n % d = 0
  · simp only [hmod, if_pos]
    have h1 : n + d - 1 = d * (n / d) + (d - 1) := by omega
    rw [h1, Nat.mul_add_div hd, Nat.div_eq_of_lt (by omega : d - 1 < d), Nat.add_zero]
  · rw [if_neg hmod]
    have h2 : d * (n / d + 1) = d * (n / d) + d := by ring
    have h1 : n + d - 1 = d * (n / d + 1) + (n % d - 1) := by omega
    rw [h1, Nat.mul_add_div hd, Nat.div_eq_of_lt (by omega : n % d - 1 < d), Nat.add_zero]


theorem getAmount0_eq_claim (low high liquidity : Nat) (roundUp : Bool)
    (hlo : 0 < low) (hlt : low < high) :
    getAmount0FromLiquidity low high liquidity roundUp =
      amount0Claim liquidity low high roundUp := by
  have hden : 0 < high * low := Nat.mul_pos (lt_trans hlo hlt) hlo
  unfold getAmount0FromLiquidity amount0Claim divRound mulDiv
  rcases Nat.eq_zero_or_pos liquidity with hL | hL
  · subst hL
    cases roundUp <;>
      simp [not_le_of_gt hlt, Nat.div_eq_of_lt (by omega : high * low - 1 < high * low)]
  · rw [if_neg (by omega)]
    cases roundUp
    · simp
    · simpa using ceil_div_eq_add_pred_div (liquidity * (high - low) * Q96) (high * low) hden

theorem getAmount1_eq_claim (low high liquidity : Nat) (roundUp : Bool)
    (hlt : low < high) :
    getAmount1FromLiquidity low high liquidity roundUp =
      amount1Claim liquidity low high roundUp := by
  unfold getAmount1FromLiquidity amount1Claim divRound mulDiv
  have hq : 0 < Q96 := q96_pos
  rcases Nat.eq_zero_or_pos liquidity with hL | hL
  · subst hL
    cases roundUp <;>
      simp [not_le_of_gt hlt, Nat.div_eq_of_lt (by omega : Q96 - 1 < Q96)]
  · rw [if_neg (by omega)]
    cases roundUp
    · simp
    · simpa using ceil_div_eq_add_pred_div (liquidity * (high - low)) Q96 hq

/-- C1: for liquidity `L ≥ 0`, a `roundUp` flag, and bounds
`0 < sqrtPriceLowerX96 < sqrtPriceUpperX96`, `getTokenAmountsFromLiquidity_X96`
returns, by regime, the claimed single-token amounts
`amount0(low, high) = L*(high-low)*2^96 / (high*low)` and
`amount1(low, high) = L*(high-low) / 2^96`, using the current price as the
binding edge when in range, with ceiling division iff `roundUp`; and for
`L = 0` or a non-increasing bound pair it returns `(0, 0)`. -/
theorem tokenAmountsFromLiquidity_X96_regimes (liquidity sqrtPriceCurrentX96
    sqrtPriceLowerX96 sqrtPriceUpperX96 : Nat) (roundUp : Bool) :
    (0 < sqrtPriceLowerX96 → sqrtPriceLowerX96 < sqrtPriceUpperX96 →
      getTokenAmountsFromLiquidity_X96 liquidity sqrtPriceCurrentX96
          sqrtPriceLowerX96 sqrtPriceUpperX96 roundUp =
        if sqrtPriceCurrentX96 ≤ sqrtPriceLowerX96 then
          ⟨amount0Claim liquidity sqrtPriceLowerX96 sqrtPriceUpperX96 roundUp, 0⟩
        else if sqrtPriceUpperX96 ≤ sqrtPriceCurrentX96 then
          ⟨0, amount1Claim liquidity sqrtPriceLowerX96 sqrtPriceUpperX96 roundUp⟩
        else
          ⟨amount0Claim liquidity sqrtPriceCurrentX96 sqrtPriceUpperX96 roundUp,
           amount1Claim liquidity sqrtPriceLowerX96 sqrtPriceCurrentX96 roundUp⟩) ∧
    (liquidity = 0 ∨ sqrtPriceUpperX96 ≤ sqrtPriceLowerX96 →
      getTokenAmountsFromLiquidity_X96 liquidity sqrtPriceCurrentX96
          sqrtPriceLowerX96 sqrtPriceUpperX96 roundUp = ⟨0, 0⟩) := by
  constructor
  · intro hlo hlt
    unfold getTokenAmountsFromLiquidity_X96
    rcases Nat.eq_zero_or_pos liquidity with hL | hL
    · subst hL
      have h0 : ∀ lo hi : Nat, 0 < lo → lo < hi →
          amount0Claim 0 lo hi roundUp = 0 := by
        intro lo hi h1 h2
        rw [← getAmount0_eq_claim lo hi 0 roundUp h1 h2]
        unfold getAmount0FromLiquidity
        simp
      have h1 : ∀ lo hi : Nat, lo < hi → amount1Claim 0 lo hi roundUp = 0 := by
        intro lo hi h2
        rw [← getAmount1_eq_claim lo hi 0 roundUp h2]
        unfold getAmount1FromLiquidity
        simp
      by_cases hc1 : sqrtPriceCurrentX96 ≤ sqrtPriceLowerX96
      · simp [hc1, h0 sqrtPriceLowerX96 sqrtPriceUpperX96 hlo hlt]
      · by_cases hc2 : sqrtPriceUpperX96 ≤ sqrtPriceCurrentX96
        · simp [hc1, hc2, h1 sqrtPriceLowerX96 sqrtPriceUpperX96 hlt]
        · simp [hc1, hc2,
            h0 sqrtPriceCurrentX96 sqrtPriceUpperX96 (by omega) (by omega),
            h1 sqrtPriceLowerX96 sqrtPriceCurrentX96 (by omega)]
    · rw [if_neg (by omega)]
      by_cases hc1 : sqrtPriceCurrentX96 ≤ sqrtPriceLowerX96
      · simp [hc1,
          getAmount0_eq_claim sqrtPriceLowerX96 sqrtPriceUpperX96 liquidity roundUp hlo hlt]
      · by_cases hc2 : sqrtPriceUpperX96 ≤ sqrtPriceCurrentX96
        · simp [hc1, hc2,
            getAmount1_eq_claim sqrtPriceLowerX96 sqrtPriceUpperX96 liquidity roundUp hlt]
        · simp [hc1, hc2,
            getAmount0_eq_claim sqrtPriceCurrentX96 sqrtPriceUpperX96 liquidity roundUp
              (by omega) (by omega),
            getAmount1_eq_claim sqrtPriceLowerX96 sqrtPriceCurrentX96 liquidity roundUp
              (by omega)]
  · intro h
    unfold getTokenAmountsFromLiquidity_X96
    rcases h with h | h
    · simp [h]
    · rcases Nat.eq_zero_or_pos liquidity with hL | hL
      · simp [hL]
      · rw [if_neg (by omega)]
        by_cases hc1 : sqrtPriceCurrentX96 ≤ sqrtPriceLowerX96
      <;> by_cases hc2 : sqrtPriceUpperX96 ≤ sqrtPriceCurrentX96
      <;> simp [hc1, hc2, getAmount0FromLiquidity, getAmount1FromLiquidity, h] <;> omega

theorem tokenAmountsFromLiquidity_X96_regimes_witness :
    ((0:Nat) < 100 ∧ (100:Nat) < 300 ∧
      getTokenAmountsFromLiquidity_X96 5 200 100 300 true =
        ⟨amount0Claim 5 200 300 true, amount1Claim 5 100 200 true⟩) ∧
    ((300:Nat) ≤ 300 ∧
      getTokenAmountsFromLiquidity_X96 5 200 300 300 true = ⟨0, 0⟩) := by
  refine ⟨⟨by decide, by decide, ?_⟩, ⟨le_refl _, ?_⟩⟩
  · have h := (tokenAmountsFromLiquidity_X96_regimes 5 200 100 300 true).1
      (by decide) (by decide)
    rw [h]; decide
  · exact (tokenAmountsFromLiquidity_X96_regimes 5 200 300 300 true).2 (Or.inr (le_refl _))

theorem getLiquidityFromAmount0_eq_claim (low high amount0 : Nat) :
    getLiquidityFromAmount0 low high amount0 false =
      liquidityFromAmount0Claim amount0 low high := by
  unfold getLiquidityFromAmount0 liquidityFromAmount0Claim
  by_cases h : high ≤ low
  · simp [h]
  · rcases Nat.eq_zero_or_pos amount0 with h0 | h0
    · simp [h, h0]
    · rw [if_neg (by omega), if_neg h]
      simp

theorem getLiquidityFromAmount1_eq_claim (low high amount1 : Nat) :
    getLiquidityFromAmount1 low high amount1 false =
      liquidityFromAmount1Claim amount1 low high := by
  unfold getLiquidityFromAmount1 liquidityFromAmount1Claim
  by_cases h : high ≤ low
  · simp [h]
  · rcases Nat.eq_zero_or_pos amount1 with h0 | h0
    · simp [h, h0]
    · rw [if_neg (by omega), if_neg h]
      simp

/-- C2: for bounds `0 < sqrtPriceLowerX96 < sqrtPriceUpperX96`,
`getLiquidityFromTokenAmounts_X96` returns the liquidity from `token0Amount`
alone below range, from `token1Amount` alone above range, and otherwise the
minimum of the two single-token liquidities with the current price as the
binding edge, always with floor division. -/
theorem liquidityFromTokenAmounts_X96_regimes (sqrtPriceCurrentX96
    sqrtPriceLowerX96 sqrtPriceUpperX96 token0Amount token1Amount : Nat)
    (hlo : 0 < sqrtPriceLowerX96) (hlt : sqrtPriceLowerX96 < sqrtPriceUpperX96) :
    getLiquidityFromTokenAmounts_X96 sqrtPriceCurrentX96 sqrtPriceLowerX96
        sqrtPriceUpperX96 token0Amount token1Amount =
      if sqrtPriceCurrentX96 ≤ sqrtPriceLowerX96 then
        liquidityFromAmount0Claim token0Amount sqrtPriceLowerX96 sqrtPriceUpperX96
      else if sqrtPriceUpperX96 ≤ sqrtPriceCurrentX96 then
        liquidityFromAmount1Claim token1Amount sqrtPriceLowerX96 sqrtPriceUpperX96
      else
        min (liquidityFromAmount0Claim token0Amount sqrtPriceCurrentX96 sqrtPriceUpperX96)
          (liquidityFromAmount1Claim token1Amount sqrtPriceLowerX96 sqrtPriceCurrentX96) := by
  unfold getLiquidityFromTokenAmounts_X96
  by_cases hc1 : sqrtPriceCurrentX96 ≤ sqrtPriceLowerX96
  · simp [hc1, getLiquidityFromAmount0_eq_claim]
  · by_cases hc2 : sqrtPriceUpperX96 ≤ sqrtPriceCurrentX96
    · simp [hc1, hc2, getLiquidityFromAmount1_eq_claim]
    · simp only [if_neg hc1, if_neg hc2]
      rw [getLiquidityFromAmount0_eq_claim, getLiquidityFromAmount1_eq_claim]
      split
      · omega
      · omega

theorem liquidityFromTokenAmounts_X96_regimes_witness :
    (0:Nat) < 100 ∧ (100:Nat) < 300 ∧
      getLiquidityFromTokenAmounts_X96 200 100 300 50000 70000 =
        min (liquidityFromAmount0Claim 50000 200 300)
          (liquidityFromAmount1Claim 70000 100 200) := by
  refine ⟨by decide, by decide, ?_⟩
  rw [liquidityFromTokenAmounts_X96_regimes 200 100 300 50000 70000 (by decide) (by decide)]
  decide

theorem roundtrip_amount0_le (low high liquidity : Nat) (hlo : 0 < low)
    (hlt : low < high) :
    getLiquidityFromAmount0 low high
        (getAmount0FromLiquidity low high liquidity false) false ≤ liquidity := by
  set a := getAmount0FromLiquidity low high liquidity false with ha
  unfold getLiquidityFromAmount0
  by_cases h0 : high ≤ low ∨ a = 0
  · rw [if_pos h0]; exact Nat.zero_le _
  · rw [if_neg h0]
    have hA : a ≠ 0 := by
      intro h; exact h0 (Or.inr h)
    have hL : liquidity ≠ 0 := by
      intro h
      apply hA
      rw [ha, h]
      unfold getAmount0FromLiquidity
      simp
    have haval : a = liquidity * (high - low) * Q96 / (high * low) := by
      rw [ha]
      unfold getAmount0FromLiquidity mulDiv
      rw [if_neg (by omega)]
      simp
    have key : a * (low * high) ≤ liquidity * (high - low) * Q96 := by
      rw [haval, Nat.mul_comm low high]
      exact Nat.div_mul_le_self _ _
    have hpos : 0 < Q96 * (high - low) :=
      Nat.mul_pos q96_pos (by omega)
    calc a * (low * high) / (Q96 * (high - low))
        ≤ liquidity * (high - low) * Q96 / (Q96 * (high - low)) :=
          Nat.div_le_div_right key
      _ = liquidity := by
          rw [show liquidity * (high - low) * Q96 = liquidity * (Q96 * (high - low)) by ring]
          exact Nat.mul_div_cancel liquidity hpos

theorem roundtrip_amount1_le (low high liquidity : Nat) (hlt : low < high) :
    getLiquidityFromAmount1 low high
        (getAmount1FromLiquidity low high liquidity false) false ≤ liquidity := by
  set a := getAmount1FromLiquidity low high liquidity false with ha
  unfold getLiquidityFromAmount1
  by_cases h0 : high ≤ low ∨ a = 0
  · rw [if_pos h0]; exact Nat.zero_le _
  · rw [if_neg h0]
    have hA : a ≠ 0 := by
      intro h; exact h0 (Or.inr h)
    have hL : liquidity ≠ 0 := by
      intro h
      apply hA
      rw [ha, h]
      unfold getAmount1FromLiquidity
      simp
    have haval : a = liquidity * (high - low) / Q96 := by
      rw [ha]
      unfold getAmount1FromLiquidity mulDiv
      rw [if_neg (by omega)]
      simp
    have key : a * Q96 ≤ liquidity * (high - low) := by
      rw [haval]
      exact Nat.div_mul_le_self _ _
    calc a * Q96 / (high - low)
        ≤ liquidity * (high - low) / (high - low) := Nat.div_le_div_right key
      _ = liquidity := Nat.mul_div_cancel liquidity (by omega)

/-- C3: feeding the floor-rounded output of `getTokenAmountsFromLiquidity_X96`
back into `getLiquidityFromTokenAmounts_X96` at the same sqrt prices never
gains liquidity. -/
theorem roundtrip_liquidity_le (liquidity sqrtPriceCurrentX96
    sqrtPriceLowerX96 sqrtPriceUpperX96 : Nat) (hlo : 0 < sqrtPriceLowerX96)
    (hlt : sqrtPriceLowerX96 < sqrtPriceUpperX96) (hS : 0 < sqrtPriceCurrentX96) :
    getLiquidityFromTokenAmounts_X96 sqrtPriceCurrentX96 sqrtPriceLowerX96
        sqrtPriceUpperX96
        (getTokenAmountsFromLiquidity_X96 liquidity sqrtPriceCurrentX96
          sqrtPriceLowerX96 sqrtPriceUpperX96 false).token0Amount
        (getTokenAmountsFromLiquidity_X96 liquidity sqrtPriceCurrentX96
          sqrtPriceLowerX96 sqrtPriceUpperX96 false).token1Amount ≤ liquidity := by
  rcases Nat.eq_zero_or_pos liquidity with hL | hL
  · subst hL
    unfold getTokenAmountsFromLiquidity_X96 getLiquidityFromTokenAmounts_X96
      getLiquidityFromAmount0 getLiquidityFromAmount1
    simp
  · by_cases hc1 : sqrtPriceCurrentX96 ≤ sqrtPriceLowerX96
    · have hamts : getTokenAmountsFromLiquidity_X96 liquidity sqrtPriceCurrentX96
          sqrtPriceLowerX96 sqrtPriceUpperX96 false =
          ⟨getAmount0FromLiquidity sqrtPriceLowerX96 sqrtPriceUpperX96 liquidity false, 0⟩ := by
        unfold getTokenAmountsFromLiquidity_X96
        rw [if_neg (by omega), if_pos hc1]
      rw [hamts]
      unfold getLiquidityFromTokenAmounts_X96
      rw [if_pos hc1]
      exact roundtrip_amount0_le _ _ _ hlo hlt
    · by_cases hc2 : sqrtPriceUpperX96 ≤ sqrtPriceCurrentX96
      · have hamts : getTokenAmountsFromLiquidity_X96 liquidity sqrtPriceCurrentX96
            sqrtPriceLowerX96 sqrtPriceUpperX96 false =
            ⟨0, getAmount1FromLiquidity sqrtPriceLowerX96 sqrtPriceUpperX96 liquidity false⟩ := by
          unfold getTokenAmountsFromLiquidity_X96
          rw [if_neg (by omega), if_neg hc1, if_pos hc2]
        rw [hamts]
        unfold getLiquidityFromTokenAmounts_X96
        rw [if_neg hc1, if_pos hc2]
        exact roundtrip_amount1_le _ _ _ hlt
      · have hamts : getTokenAmountsFromLiquidity_X96 liquidity sqrtPriceCurrentX96
            sqrtPriceLowerX96 sqrtPriceUpperX96 false =
            ⟨getAmount0FromLiquidity sqrtPriceCurrentX96 sqrtPriceUpperX96 liquidity false,
             getAmount1FromLiquidity sqrtPriceLowerX96 sqrtPriceCurrentX96 liquidity false⟩ := by
          unfold getTokenAmountsFromLiquidity_X96
          rw [if_neg (by omega), if_neg hc1, if_neg hc2]
        rw [hamts]
        unfold getLiquidityFromTokenAmounts_X96
        rw [if_neg hc1, if_neg hc2]
        have h0 := roundtrip_amount0_le sqrtPriceCurrentX96 sqrtPriceUpperX96 liquidity
          (by omega) (by omega)
        have h1 := roundtrip_amount1_le sqrtPriceLowerX96 sqrtPriceCurrentX96 liquidity
          (by omega)
        dsimp only
        split
        · exact h0
        · exact h1

theorem roundtrip_liquidity_le_witness :
    getLiquidityFromTokenAmounts_X96 200 100 300
        (getTokenAmountsFromLiquidity_X96 1000000 200 100 300 false).token0Amount
        (getTokenAmountsFromLiquidity_X96 1000000 200 100 300 false).token1Amount
      ≤ 1000000 :=
  roundtrip_liquidity_le 1000000 200 100 300 (by decide) (by decide) (by decide)

theorem K_Q96_inToken1_eq (B A S : Nat) (h1 : B < S) (h2 : S < A) :
    K_Q96_inToken1 B A S = K_inToken1Claim B A S := by
  unfold K_Q96_inToken1 K_inToken1Claim
  rw [if_neg (by omega), if_neg (by omega)]

theorem K_Q96_inToken0_eq (B A S : Nat) (h1 : B < S) (h2 : S < A) :
    K_Q96_inToken0 B A S = K_inToken0Claim B A S := by
  unfold K_Q96_inToken0 K_inToken0Claim
  rw [if_neg (by omega), if_neg (by omega)]

/-- C4: for an in-range input (after internal reordering of the bounds) with
a positive total quote-denominated budget, `getLiquidityFromInvestmentAmounts`
returns `budget * 2^96 / K` with `K` given exactly by the claimed closed-form
formulas (depending on which token is the quote token), and returns zero
liquidity whenever `K = 0`. -/
theorem liquidityFromInvestment_inRange (baseAmount baseDecimals quoteAmount
    quoteDecimals : Nat) (isQuoteToken0 : Bool)
    (sqrtPriceLowerX96 sqrtPriceUpperX96 sqrtPriceCurrentX96 : Nat)
    (hB : min sqrtPriceLowerX96 sqrtPriceUpperX96 < sqrtPriceCurrentX96)
    (hA : sqrtPriceCurrentX96 < max sqrtPriceLowerX96 sqrtPriceUpperX96)
    (hbudget : 0 < totalBudgetInQuote baseAmount quoteAmount isQuoteToken0
      sqrtPriceCurrentX96) :
    getLiquidityFromInvestmentAmounts baseAmount baseDecimals quoteAmount
        quoteDecimals isQuoteToken0 sqrtPriceLowerX96 sqrtPriceUpperX96
        sqrtPriceCurrentX96 =
      (let K := if isQuoteToken0 then
          K_inToken0Claim (min sqrtPriceLowerX96 sqrtPriceUpperX96)
            (max sqrtPriceLowerX96 sqrtPriceUpperX96) sqrtPriceCurrentX96
        else
          K_inToken1Claim (min sqrtPriceLowerX96 sqrtPriceUpperX96)
            (max sqrtPriceLowerX96 sqrtPriceUpperX96) sqrtPriceCurrentX96
       if K = 0 then 0
       else totalBudgetInQuote baseAmount quoteAmount isQuoteToken0
          sqrtPriceCurrentX96 * Q96 / K) := by
  have hguard : ¬(baseAmount = 0 ∧ quoteAmount = 0) := by
    rintro ⟨h1, h2⟩
    subst h1; subst h2
    unfold totalBudgetInQuote at hbudget
    rcases isQuoteToken0 <;> simp at hbudget
  have hAeq : (if sqrtPriceLowerX96 < sqrtPriceUpperX96 then sqrtPriceUpperX96
      else sqrtPriceLowerX96) = max sqrtPriceLowerX96 sqrtPriceUpperX96 := by
    split <;> omega
  have hBeq : (if sqrtPriceLowerX96 < sqrtPriceUpperX96 then sqrtPriceLowerX96
      else sqrtPriceUpperX96) = min sqrtPriceLowerX96 sqrtPriceUpperX96 := by
    split <;> omega
  unfold getLiquidityFromInvestmentAmounts
  rw [if_neg hguard]
  dsimp only
  rw [hAeq, hBeq]
  rw [if_neg (by omega), if_neg (by omega)]
  rcases isQuoteToken0
  · simp only [Bool.false_eq_true, if_false]
    rw [K_Q96_inToken1_eq _ _ _ (by omega) (by omega)]
  · simp only [if_true]
    rw [K_Q96_inToken0_eq _ _ _ (by omega) (by omega)]

theorem liquidityFromInvestment_inRange_witness :
    min 100 300 < 200 ∧ (200:Nat) < max 100 300 ∧
      getLiquidityFromInvestmentAmounts 7 0 5 0 false 100 300 200 =
        (let K := if false then K_inToken0Claim (min 100 300) (max 100 300) 200
            else K_inToken1Claim (min 100 300) (max 100 300) 200
         if K = 0 then 0 else totalBudgetInQuote 7 5 false 200 * Q96 / K) :=
  ⟨by decide, by decide,
    liquidityFromInvestment_inRange 7 0 5 0 false 100 300 200 (by decide) (by decide)
      (by decide)⟩

/-- C5: `computeFeeGrowthInside` computes, independently for each token,
`safeDiff(safeDiff(growthGlobal, below), above)` with the claimed `below`
and `above` selections, and `safeDiff(a, b)` is `a - b` when `a ≥ b` and `0`
otherwise. -/
theorem computeFeeGrowthInside_spec (tickCurrent tickLower tickUpper : Int)
    (g0 g1 ol0 ol1 ou0 ou1 a b : Nat) :
    computeFeeGrowthInside tickCurrent tickLower tickUpper g0 g1 ol0 ol1 ou0 ou1 =
      ⟨insideClaim tickCurrent tickLower tickUpper g0 ol0 ou0,
       insideClaim tickCurrent tickLower tickUpper g1 ol1 ou1⟩ ∧
    (b ≤ a → safeDiff a b = a - b) ∧
    (a < b → safeDiff a b = 0) := by
  refine ⟨rfl, ?_, ?_⟩
  · intro h
    unfold safeDiff
    rw [if_pos h]
  · intro h
    unfold safeDiff
    rw [if_neg (by omega)]

theorem computeFeeGrowthInside_spec_witness :
    computeFeeGrowthInside 0 (-5) 5 100 200 30 40 20 10 =
      ⟨insideClaim 0 (-5) 5 100 30 20, insideClaim 0 (-5) 5 200 40 10⟩ ∧
    (3:Nat) ≤ 5 ∧ safeDiff 5 3 = 5 - 3 :=
  ⟨(computeFeeGrowthInside_spec 0 (-5) 5 100 200 30 40 20 10 5 3).1, by decide,
    (computeFeeGrowthInside_spec 0 (-5) 5 100 200 30 40 20 10 5 3).2.1 (by decide)⟩

/-- C8 counterexample: with an inverted tick pair, a current tick at or above
`tickUpper` can still yield `below`; and when `tickLower = tickUpper`, the
current tick equal to `tickLower` yields `above`, not `in-range`. -/
theorem determinePhase_counterexample :
    (determinePhase 5 10 0 = .below ∧ (0:Int) ≤ 5 ∧ determinePhase 5 10 0 ≠ .above) ∧
    (determinePhase 5 5 5 = .above ∧ determinePhase 5 5 5 ≠ .inRange) := by
  decide

/-- C8 (amended): for tick triples with `tickLower < tickUpper`,
`determinePhase` returns `below` exactly when `tickCurrent < tickLower`,
`above` exactly when `tickCurrent ≥ tickUpper` (upper bound exclusive), and
`in-range` otherwise (lower bound inclusive). -/
theorem determinePhase_spec (tickCurrent tickLower tickUpper : Int)
    (h : tickLower < tickUpper) :
    (determinePhase tickCurrent tickLower tickUpper = .below ↔
      tickCurrent < tickLower) ∧
    (determinePhase tickCurrent tickLower tickUpper = .above ↔
      tickUpper ≤ tickCurrent) ∧
    (determinePhase tickCurrent tickLower tickUpper = .inRange ↔
      tickLower ≤ tickCurrent ∧ tickCurrent < tickUpper) := by
  unfold determinePhase
  by_cases h1 : tickCurrent < tickLower
  · rw [if_pos h1]
    refine ⟨by simp [h1], ?_, ?_⟩ <;> simp <;> omega
  · rw [if_neg h1]
    by_cases h2 : tickUpper ≤ tickCurrent
    · rw [if_pos h2]
      refine ⟨?_, by simp [h2], ?_⟩ <;> simp <;> omega
    · rw [if_neg h2]
      refine ⟨?_, ?_, by simp <;> omega⟩ <;> simp <;> omega

theorem determinePhase_spec_witness : determinePhase 5 0 10 = .inRange :=
  ((determinePhase_spec 5 0 10 (by decide)).2.2).mpr (by decide)

/-- C10: `getLiquidityFromInvestmentAmounts` internally reorders its bound
pair, so swapping `sqrtPriceLowerX96` and `sqrtPriceUpperX96` leaves the
result unchanged. -/
theorem liquidityFromInvestment_swap_bounds (baseAmount baseDecimals
    quoteAmount quoteDecimals : Nat) (isQuoteToken0 : Bool)
    (sqrtPriceLowerX96 sqrtPriceUpperX96 sqrtPriceCurrentX96 : Nat) :
    getLiquidityFromInvestmentAmounts baseAmount baseDecimals quoteAmount
        quoteDecimals isQuoteToken0 sqrtPriceLowerX96 sqrtPriceUpperX96
        sqrtPriceCurrentX96 =
      getLiquidityFromInvestmentAmounts baseAmount baseDecimals quoteAmount
        quoteDecimals isQuoteToken0 sqrtPriceUpperX96 sqrtPriceLowerX96
        sqrtPriceCurrentX96 := by
  unfold getLiquidityFromInvestmentAmounts
  rcases lt_trichotomy sqrtPriceLowerX96 sqrtPriceUpperX96 with h | h | h
  · have h2 : ¬ sqrtPriceUpperX96 < sqrtPriceLowerX96 := by omega
    simp only [h, h2, if_true, if_false]
  · rw [h]
  · have h2 : ¬ sqrtPriceLowerX96 < sqrtPriceUpperX96 := by omega
    simp only [h, h2, if_true, if_false]

/-- C7 counterexample: at `currentValue = 1`, `costBasis = 3` the returned
percentage is the two-decimal truncation `-66.66`, not the exact
`100 * pnl / costBasis = -200/3`. -/
theorem calculatePnL_counterexample :
    (calculatePnL 1 3).1 = -2 ∧
    (calculatePnL 1 3).2 = -(3333 / 50 : Rat) ∧
    (100 * ((-2 : Int) : Rat) / 3 ≠ -(3333 / 50 : Rat)) := by
  refine ⟨rfl, ?_, ?_⟩
  · show ((((1 - 3) * 10000 : Int).tdiv 3 : Int) : Rat) / 100 = -(3333 / 50 : Rat)
    have ht : ((1 - 3) * 10000 : Int).tdiv 3 = -6666 := by decide
    rw [ht]
    norm_num
  · intro h
    rw [div_eq_iff (by norm_num : (3:Rat) ≠ 0)] at h
    norm_num at h

/-- C7 (amended): `calculatePnL` returns `pnl = currentValue - costBasis`
(signed); when `costBasis > 0`, `pnlPercent` is `100 * pnl / costBasis`
truncated toward zero at two decimal places, i.e.
`trunc(10000 * pnl / costBasis) / 100`; when `costBasis = 0`, `pnlPercent`
is `0`. -/
theorem calculatePnL_spec (currentValue costBasis : Int) (h : 0 ≤ costBasis) :
    (calculatePnL currentValue costBasis).1 = currentValue - costBasis ∧
    (0 < costBasis → (calculatePnL currentValue costBasis).2 =
      ((((currentValue - costBasis) * 10000).tdiv costBasis : Int) : Rat) / 100) ∧
    (costBasis = 0 → (calculatePnL currentValue costBasis).2 = 0) := by
  unfold calculatePnL
  refine ⟨rfl, ?_, ?_⟩
  · intro h1
    simp only [if_pos h1]
  · intro h1
    simp only [h1, lt_irrefl, if_neg, if_false]

theorem calculatePnL_spec_witness :
    (calculatePnL 1 3).1 = 1 - 3 ∧
    (calculatePnL 1 3).2 = ((((1 - 3) * 10000 : Int).tdiv 3 : Int) : Rat) / 100 :=
  ⟨(calculatePnL_spec 1 3 (by decide)).1, (calculatePnL_spec 1 3 (by decide)).2.1 (by decide)⟩

/-! ## Correctness of the bounded search machinery -/

theorem binPow_eq : ∀ f b e : Nat, e ≤ f → binPow f b e = b ^ e := by
  intro f
  induction f with
  | zero =>
    intro b e h
    have he : e = 0 := by omega
    subst he
    simp [binPow]
  | succ f ih =>
    intro b e h
    unfold binPow
    by_cases he : e = 0
    · simp [he]
    · rw [if_neg he]
      have h2 : e / 2 ≤ f := by omega
      rw [ih (b * b) (e / 2) h2]
      have hbb : (b * b) ^ (e / 2) = b ^ (2 * (e / 2)) := by
        rw [pow_mul]
        ring_nf
      by_cases hp : e % 2 = 1
      · rw [if_pos hp, hbb]
        have hsplit : e = 2 * (e / 2) + 1 := by omega
        conv_rhs => rw [hsplit]
        rw [pow_succ]
        ring
      · rw [if_neg hp, hbb]
        have hsplit : 2 * (e / 2) = e := by omega
        rw [hsplit]

theorem log2fuel_lt : ∀ f n : Nat, n ≤ f → n < 2 ^ (log2fuel f n + 1) := by
  intro f
  induction f with
  | zero =>
    intro n h
    have : n = 0 := by omega
    subst this
    simp [log2fuel]
  | succ f ih =>
    intro n h
    unfold log2fuel
    by_cases h1 : n ≤ 1
    · rw [if_pos h1]
      simp
      omega
    · rw [if_neg h1]
      have h2 : n / 2 ≤ f := by omega
      have h3 := ih (n / 2) h2
      have h4 : 2 ^ (log2fuel f (n / 2) + 1 + 1) = 2 * 2 ^ (log2fuel f (n / 2) + 1) := by
        rw [pow_succ]
        ring
      omega

theorem log2M_lt (n : Nat) : n < 2 ^ (log2M n + 1) := log2fuel_lt n n (le_refl n)

theorem bool_eq_false_of_not_true {b : Bool} (h : ¬ b = true) : b = false := by
  revert h
  cases b <;> simp

theorem bsearchGreatest_spec (Q : Nat → Bool) : ∀ f lo hi : Nat, Q lo = true →
    Q hi = false → lo < hi → hi - lo ≤ 2 ^ f →
    Q (bsearchGreatest Q f lo hi) = true ∧
    Q (bsearchGreatest Q f lo hi + 1) = false ∧
    lo ≤ bsearchGreatest Q f lo hi ∧ bsearchGreatest Q f lo hi < hi := by
  intro f
  induction f with
  | zero =>
    intro lo hi hlo hhi hlt hgap
    have h1 : (2:Nat) ^ 0 = 1 := pow_zero 2
    have h2 : hi = lo + 1 := by omega
    unfold bsearchGreatest
    subst h2
    exact ⟨hlo, hhi, le_refl _, by omega⟩
  | succ f ih =>
    intro lo hi hlo hhi hlt hgap
    unfold bsearchGreatest
    by_cases hle : hi ≤ lo + 1
    · rw [if_pos hle]
      have h2 : hi = lo + 1 := by omega
      subst h2
      exact ⟨hlo, hhi, le_refl _, by omega⟩
    · rw [if_neg hle]
      have hpow : 2 ^ (f + 1) = 2 ^ f + 2 ^ f := by
        rw [pow_succ]
        ring
      have hlom : lo < (lo + hi) / 2 := by omega
      have hmhi : (lo + hi) / 2 < hi := by omega
      by_cases hQ : Q ((lo + hi) / 2) = true
      · rw [if_pos hQ]
        have := ih ((lo + hi) / 2) hi hQ hhi hmhi (by omega)
        exact ⟨this.1, this.2.1, by omega, this.2.2.2⟩
      · have hQ' : Q ((lo + hi) / 2) = false := bool_eq_false_of_not_true hQ
        rw [if_neg hQ]
        have := ih lo ((lo + hi) / 2) hlo hQ' hlom (by omega)
        exact ⟨this.1, this.2.1, this.2.2.1, by omega⟩

theorem gallopUp_spec (Q : Nat → Bool) (U c : Nat) (hcU : c < U) :
    ∀ f step : Nat, 1 ≤ step →
    gallopUp Q U c f step = U ∨
      (Q (gallopUp Q U c f step) = false ∧ c < gallopUp Q U c f step ∧
        gallopUp Q U c f step ≤ U) := by
  intro f
  induction f with
  | zero =>
    intro step h
    left
    rfl
  | succ f ih =>
    intro step hstep
    unfold gallopUp
    by_cases hQ : Q (min (c + step) U) = true
    · rw [if_pos hQ]
      by_cases hU : U ≤ min (c + step) U
      · rw [if_pos hU]
        left
        rfl
      · rw [if_neg hU]
        exact ih (2 * step) (by omega)
    · have hQ' : Q (min (c + step) U) = false := bool_eq_false_of_not_true hQ
      rw [if_neg hQ]
      right
      refine ⟨hQ', by omega, by omega⟩

theorem gallopDown_spec (Q : Nat → Bool) (c : Nat) (hc : 0 < c) :
    ∀ f step : Nat, 1 ≤ step →
    gallopDown Q c f step = 0 ∨
      (Q (gallopDown Q c f step) = true ∧ gallopDown Q c f step < c) := by
  intro f
  induction f with
  | zero =>
    intro step h
    left
    rfl
  | succ f ih =>
    intro step hstep
    unfold gallopDown
    by_cases hQ : Q (c - step) = true
    · rw [if_pos hQ]
      right
      exact ⟨hQ, by omega⟩
    · rw [if_neg hQ]
      by_cases h0 : c - step = 0
      · rw [if_pos h0]
        left
        rfl
      · rw [if_neg h0]
        exact ih (2 * step) (by omega)

theorem findGreatest_spec (Q : Nat → Bool) (U c fuel : Nat) (hc : 0 < c)
    (hcU : c < U) (hfuel : U ≤ 2 ^ fuel) :
    (Q (findGreatest Q U c fuel) = true ∧ findGreatest Q U c fuel ≤ U ∧
      (findGreatest Q U c fuel = U ∨ Q (findGreatest Q U c fuel + 1) = false)) ∨
    (findGreatest Q U c fuel = 0 ∧ Q 0 = false) := by
  unfold findGreatest
  by_cases hQc : Q c = true
  · rw [if_pos hQc]
    rcases gallopUp_spec Q U c hcU fuel 1 (le_refl 1) with hU | ⟨hQh, hch, hhU⟩
    · rw [hU]
      by_cases hQU : Q U = true
      · rw [if_pos hQU]
        exact Or.inl ⟨hQU, le_refl _, Or.inl rfl⟩
      · have hQU' : Q U = false := bool_eq_false_of_not_true hQU
        rw [if_neg hQU]
        have hb := bsearchGreatest_spec Q fuel c U hQc hQU' hcU (by omega)
        exact Or.inl ⟨hb.1, by omega, Or.inr hb.2.1⟩
    · rw [if_neg (by rw [hQh]; simp)]
      have hb := bsearchGreatest_spec Q fuel c (gallopUp Q U c fuel 1) hQc hQh hch
        (by omega)
      exact Or.inl ⟨hb.1, by omega, Or.inr hb.2.1⟩
  · have hQc' : Q c = false := bool_eq_false_of_not_true hQc
    rw [if_neg hQc]
    rcases gallopDown_spec Q c hc fuel 1 (le_refl 1) with h0 | ⟨hQl, hlc⟩
    · rw [h0]
      by_cases hQ0 : Q 0 = true
      · rw [if_pos hQ0]
        have hb := bsearchGreatest_spec Q fuel 0 c hQ0 hQc' hc (by omega)
        exact Or.inl ⟨hb.1, by omega, Or.inr hb.2.1⟩
      · rw [if_neg hQ0]
        exact Or.inr ⟨rfl, bool_eq_false_of_not_true hQ0⟩
    · rw [if_pos hQl]
      have hb := bsearchGreatest_spec Q fuel (gallopDown Q c fuel 1) c hQl hQc' hlc
        (by omega)
      exact Or.inl ⟨hb.1, by omega, Or.inr hb.2.1⟩

theorem findGreatest_ge (Q : Nat → Bool) (U c fuel : Nat) (hc : 0 < c)
    (hcU : c < U) (hfuel : U ≤ 2 ^ fuel)
    (hanti : ∀ u u' : Nat, u ≤ u' → Q u' = true → Q u = true)
    (v : Nat) (hv : v ≤ U) (hQv : Q v = true) : v ≤ findGreatest Q U c fuel := by
  rcases findGreatest_spec Q U c fuel hc hcU hfuel with ⟨hQr, hrU, hlast⟩ | ⟨hr0, hQ0⟩
  · rcases hlast with hU | hQn
    · omega
    · by_contra hlt
      have h1 : findGreatest Q U c fuel + 1 ≤ v := by omega
      have := hanti (findGreatest Q U c fuel + 1) v h1 hQv
      rw [this] at hQn
      simp at hQn
  · exfalso
    have := hanti 0 v (Nat.zero_le v) hQv
    rw [this] at hQ0
    simp at hQ0

theorem findGreatest_mono (Q Q' : Nat → Bool) (U c fuel : Nat) (hc : 0 < c)
    (hcU : c < U) (hfuel : U ≤ 2 ^ fuel)
    (himp : ∀ u : Nat, Q u = true → Q' u = true)
    (hanti : ∀ u u' : Nat, u ≤ u' → Q' u' = true → Q' u = true) :
    findGreatest Q U c fuel ≤ findGreatest Q' U c fuel := by
  rcases findGreatest_spec Q U c fuel hc hcU hfuel with ⟨hQr, hrU, _⟩ | ⟨hr0, _⟩
  · exact findGreatest_ge Q' U c fuel hc hcU hfuel hanti _ hrU (himp _ hQr)
  · rw [hr0]
    exact Nat.zero_le _

theorem sqrtModel_spec (n : Nat) :
    sqrtModel n * sqrtModel n ≤ n ∧ n < (sqrtModel n + 1) * (sqrtModel n + 1) := by
  unfold sqrtModel
  have hub : n < 2 ^ (log2M n + 1) := log2M_lt n
  have hc : 0 < 2 ^ (log2M n / 2) := Nat.pos_pow_of_pos _ (by omega)
  have hcU : 2 ^ (log2M n / 2) < 2 ^ (log2M n / 2 + 1) :=
    Nat.pow_lt_pow_right (by omega) (by omega)
  have hfuel : 2 ^ (log2M n / 2 + 1) ≤ 2 ^ (log2M n + 2) :=
    Nat.pow_le_pow_right (by omega) (by omega)
  have hUsq : n < 2 ^ (log2M n / 2 + 1) * 2 ^ (log2M n / 2 + 1) := by
    have h1 : 2 ^ (log2M n + 1) ≤ 2 ^ (log2M n / 2 + 1) * 2 ^ (log2M n / 2 + 1) := by
      rw [← pow_add]
      exact Nat.pow_le_pow_right (by omega) (by omega)
    omega
  rcases findGreatest_spec (fun m => m * m ≤ n) (2 ^ (log2M n / 2 + 1))
      (2 ^ (log2M n / 2)) (log2M n + 2) hc hcU hfuel with ⟨hQr, hrU, hlast⟩ | ⟨hr0, hQ0⟩
  · simp only [decide_eq_true_eq] at hQr
    refine ⟨hQr, ?_⟩
    rcases hlast with hU | hQn
    · rw [hU]
      have h2 : 2 ^ (log2M n / 2 + 1) * 2 ^ (log2M n / 2 + 1) ≤
          (2 ^ (log2M n / 2 + 1) + 1) * (2 ^ (log2M n / 2 + 1) + 1) :=
        Nat.mul_le_mul (by omega) (by omega)
      omega
    · have := of_decide_eq_false hQn
      omega
  · exfalso
    have : (decide (0 * 0 ≤ n)) = true := by simp
    rw [this] at hQ0
    simp at hQ0

theorem sqrtModel_mono {a b : Nat} (h : a ≤ b) : sqrtModel a ≤ sqrtModel b := by
  have ha := sqrtModel_spec a
  have hb := sqrtModel_spec b
  by_contra hlt
  have h1 : sqrtModel b + 1 ≤ sqrtModel a := by omega
  have h2 : (sqrtModel b + 1) * (sqrtModel b + 1) ≤ sqrtModel a * sqrtModel a :=
    Nat.mul_le_mul h1 h1
  omega

theorem div_le_div_cross {a b c d : Nat} (hb : 0 < b) (hd : 0 < d)
    (h : a * d ≤ c * b) : a / b ≤ c / d := by
  rw [Nat.le_div_iff_mul_le hd]
  have h1 : a / b * d * b ≤ a * d := by
    calc a / b * d * b = (a / b * b) * d := by ring
      _ ≤ a * d := Nat.mul_le_mul_right d (Nat.div_mul_le_self a b)
  have h2 : a / b * d ≤ a * d / b := (Nat.le_div_iff_mul_le hb).mpr h1
  calc a / b * d ≤ a * d / b := h2
    _ ≤ c * b / b := Nat.div_le_div_right h
    _ = c := Nat.mul_div_cancel c hb

theorem pow_ratio_le (k d : Nat) :
    10001 ^ k * 10000 ^ (k + d) ≤ 10001 ^ (k + d) * 10000 ^ k := by
  rw [pow_add, pow_add]
  have hle : (10000:Nat) ^ d ≤ 10001 ^ d := Nat.pow_le_pow_left (by norm_num) d
  calc 10001 ^ k * (10000 ^ k * 10000 ^ d)
      = (10001 ^ k * 10000 ^ k) * 10000 ^ d := by ring
    _ ≤ (10001 ^ k * 10000 ^ k) * 10001 ^ d := Nat.mul_le_mul_left _ hle
    _ = 10001 ^ k * 10001 ^ d * 10000 ^ k := by ring

theorem getSqrtRatioAtTick_mono {t t' : Int} (h : t ≤ t') :
    getSqrtRatioAtTick t ≤ getSqrtRatioAtTick t' := by
  unfold getSqrtRatioAtTick
  have hp1 : ∀ k : Nat, 0 < (10001:Nat) ^ k := fun k => Nat.pos_pow_of_pos _ (by norm_num)
  have hp0 : ∀ k : Nat, 0 < (10000:Nat) ^ k := fun k => Nat.pos_pow_of_pos _ (by norm_num)
  by_cases h1 : 0 ≤ t
  · have h2 : 0 ≤ t' := le_trans h1 h
    rw [if_pos h1, if_pos h2]
    apply sqrtModel_mono
    rw [binPow_eq _ _ _ (by omega), binPow_eq _ _ _ (by omega),
      binPow_eq _ _ _ (by omega), binPow_eq _ _ _ (by omega)]
    apply div_le_div_cross (hp0 _) (hp0 _)
    have hk : t.toNat ≤ t'.toNat := Int.toNat_le_toNat h
    have hd : t'.toNat = t.toNat + (t'.toNat - t.toNat) := by omega
    calc 2 ^ 192 * 10001 ^ t.toNat * 10000 ^ t'.toNat
        = 2 ^ 192 * (10001 ^ t.toNat * 10000 ^ (t.toNat + (t'.toNat - t.toNat))) := by
          rw [← hd]; ring
      _ ≤ 2 ^ 192 * (10001 ^ (t.toNat + (t'.toNat - t.toNat)) * 10000 ^ t.toNat) :=
          Nat.mul_le_mul_left _ (pow_ratio_le _ _)
      _ = 2 ^ 192 * 10001 ^ t'.toNat * 10000 ^ t.toNat := by rw [← hd]; ring
  · by_cases h2 : 0 ≤ t'
    · rw [if_neg h1, if_pos h2]
      apply sqrtModel_mono
      have hA : 2 ^ 192 * binPow ((-t).toNat + 1) 10000 (-t).toNat /
          binPow ((-t).toNat + 1) 10001 (-t).toNat ≤ 2 ^ 192 := by
        rw [binPow_eq _ _ _ (by omega), binPow_eq _ _ _ (by omega)]
        calc 2 ^ 192 * 10000 ^ (-t).toNat / 10001 ^ (-t).toNat
            ≤ 2 ^ 192 * 10001 ^ (-t).toNat / 10001 ^ (-t).toNat :=
              Nat.div_le_div_right (Nat.mul_le_mul_left _
                (Nat.pow_le_pow_left (by norm_num) _))
          _ = 2 ^ 192 := Nat.mul_div_cancel _ (hp1 _)
      have hB : (2:Nat) ^ 192 ≤ 2 ^ 192 * binPow (t'.toNat + 1) 10001 t'.toNat /
          binPow (t'.toNat + 1) 10000 t'.toNat := by
        rw [binPow_eq _ _ _ (by omega), binPow_eq _ _ _ (by omega)]
        rw [Nat.le_div_iff_mul_le (hp0 _)]
        exact Nat.mul_le_mul_left _ (Nat.pow_le_pow_left (by norm_num) _)
      omega
    · rw [if_neg h1, if_neg h2]
      apply sqrtModel_mono
      rw [binPow_eq _ _ _ (by omega), binPow_eq _ _ _ (by omega),
        binPow_eq _ _ _ (by omega), binPow_eq _ _ _ (by omega)]
      apply div_le_div_cross (hp1 _) (hp1 _)
      have hk : (-t').toNat ≤ (-t).toNat := by omega
      have hd : (-t).toNat = (-t').toNat + ((-t).toNat - (-t').toNat) := by omega
      calc 2 ^ 192 * 10000 ^ (-t).toNat * 10001 ^ (-t').toNat
          = 2 ^ 192 * (10001 ^ (-t').toNat *
              10000 ^ ((-t').toNat + ((-t).toNat - (-t').toNat))) := by
            rw [← hd]; ring
        _ ≤ 2 ^ 192 * (10001 ^ ((-t').toNat + ((-t).toNat - (-t').toNat)) *
              10000 ^ (-t').toNat) :=
            Nat.mul_le_mul_left _ (pow_ratio_le _ _)
        _ = 2 ^ 192 * 10000 ^ (-t').toNat * 10001 ^ (-t).toNat := by rw [← hd]; ring

theorem getTickAtSqrtRatio_mono {x x' : Nat} (h : x ≤ x') :
    getTickAtSqrtRatio x ≤ getTickAtSqrtRatio x' := by
  unfold getTickAtSqrtRatio
  have hm : findGreatest (fun u => getSqrtRatioAtTick ((u : Int) - 887272) ≤ x)
      1774544 887272 21 ≤
        findGreatest (fun u => getSqrtRatioAtTick ((u : Int) - 887272) ≤ x')
      1774544 887272 21 := by
    apply findGreatest_mono _ _ _ _ _ (by norm_num) (by norm_num) (by norm_num)
    · intro u hu
      simp only [decide_eq_true_eq] at hu ⊢
      omega
    · intro u u' hle hu
      simp only [decide_eq_true_eq] at hu ⊢
      have := getSqrtRatioAtTick_mono
        (show ((u : Int) - 887272) ≤ ((u' : Int) - 887272) by omega)
      omega
  omega

theorem nearestUsableTick_mono {t t' s : Int} (hs : 1 ≤ s) (hs2 : s ≤ 887272)
    (h : t ≤ t') : nearestUsableTick t s ≤ nearestUsableTick t' s := by
  unfold nearestUsableTick MIN_TICK MAX_TICK
  dsimp only
  have hfd : Int.fdiv (2 * t + s) (2 * s) ≤ Int.fdiv (2 * t' + s) (2 * s) := by
    rw [Int.fdiv_eq_ediv _ (by omega), Int.fdiv_eq_ediv _ (by omega)]
    exact Int.ediv_le_ediv (by omega) (by omega)
  by_cases hq : Int.fdiv (2 * t + s) (2 * s) = Int.fdiv (2 * t' + s) (2 * s)
  · rw [hq]
  · have hqlt : Int.fdiv (2 * t + s) (2 * s) < Int.fdiv (2 * t' + s) (2 * s) :=
      lt_of_le_of_ne hfd hq
    have hrr : Int.fdiv (2 * t + s) (2 * s) * s ≤ Int.fdiv (2 * t' + s) (2 * s) * s :=
      mul_le_mul_of_nonneg_right hfd (by omega)
    have hstep : Int.fdiv (2 * t + s) (2 * s) * s + s ≤
        Int.fdiv (2 * t' + s) (2 * s) * s := by
      calc Int.fdiv (2 * t + s) (2 * s) * s + s
          = (Int.fdiv (2 * t + s) (2 * s) + 1) * s := by ring
        _ ≤ Int.fdiv (2 * t' + s) (2 * s) * s :=
            mul_le_mul_of_nonneg_right (by omega) (by omega)
    set a := Int.fdiv (2 * t + s) (2 * s) * s with ha
    set b := Int.fdiv (2 * t' + s) (2 * s) * s with hb
    split_ifs <;> omega

theorem determinePhase_mono (tickLower tickUpper : Int) {t t' : Int} (h : t ≤ t') :
    phaseIdx (determinePhase t tickLower tickUpper) ≤
      phaseIdx (determinePhase t' tickLower tickUpper) := by
  unfold determinePhase
  split_ifs <;> simp [phaseIdx] <;> omega

theorem encodeSqrtRatioX96_mono_amount1 {a1 a1' a0 : Nat} (h : a1 ≤ a1') :
    encodeSqrtRatioX96 a1 a0 ≤ encodeSqrtRatioX96 a1' a0 := by
  unfold encodeSqrtRatioX96
  exact sqrtModel_mono (Nat.div_le_div_right (Nat.mul_le_mul_right _ h))

theorem encodeSqrtRatioX96_anti_amount0 {a1 a0 a0' : Nat} (h0 : 0 < a0)
    (h : a0 ≤ a0') : encodeSqrtRatioX96 a1 a0' ≤ encodeSqrtRatioX96 a1 a0 := by
  unfold encodeSqrtRatioX96
  exact sqrtModel_mono (Nat.div_le_div_left h h0)

theorem priceToTick_ok (price tickSpacing : Int) (baseTokenAddress
    quoteTokenAddress baseTokenDecimals : Nat) (hp : 0 < price) :
    priceToTick price tickSpacing baseTokenAddress quoteTokenAddress
        baseTokenDecimals =
      .ok (nearestUsableTick (getTickAtSqrtRatio (encodeSqrtRatioX96
        (if baseTokenAddress < quoteTokenAddress then price.toNat
          else 10 ^ baseTokenDecimals)
        (if baseTokenAddress < quoteTokenAddress then 10 ^ baseTokenDecimals
          else price.toNat))) tickSpacing) := by
  unfold priceToTick priceToSqrtRatioX96
  rw [if_neg (by omega)]
  rfl

theorem mapM_ok_of_forall {α β : Type} (g : α → Except String β) (f : α → β) :
    ∀ l : List α, (∀ a ∈ l, g a = .ok (f a)) → l.mapM g = .ok (l.map f) := by
  intro l
  induction l with
  | nil => intro _; rfl
  | cons x xs ih =>
    intro h
    rw [List.mapM_cons, h x (List.mem_cons_self x xs),
      ih (fun a ha => h a (List.mem_cons_of_mem _ ha))]
    rfl

theorem generatePnLCurve_ok (liquidity : Nat) (tickLower tickUpper : Int)
    (costBasis : Int) (baseTokenAddress quoteTokenAddress : Nat)
    (baseTokenDecimals : Nat) (tickSpacing : Int)
    (priceRangeMin priceRangeMax : Int) (numPoints : Nat)
    (hmin : 1 ≤ priceRangeMin) (hlt : priceRangeMin ≤ priceRangeMax) :
    generatePnLCurve liquidity tickLower tickUpper costBasis baseTokenAddress
        quoteTokenAddress baseTokenDecimals tickSpacing priceRangeMin
        priceRangeMax numPoints =
      .ok ((List.range (numPoints + 1)).map (pnlPointAt liquidity tickLower
        tickUpper costBasis baseTokenAddress quoteTokenAddress baseTokenDecimals
        tickSpacing priceRangeMin priceRangeMax numPoints)) := by
  unfold generatePnLCurve
  dsimp only
  refine mapM_ok_of_forall _
    (pnlPointAt liquidity tickLower tickUpper costBasis baseTokenAddress
      quoteTokenAddress baseTokenDecimals tickSpacing priceRangeMin
      priceRangeMax numPoints) _ ?_
  intro i _
  have hstep : 0 ≤ (priceRangeMax - priceRangeMin).tdiv (numPoints : Int) :=
    Int.tdiv_nonneg (by omega) (by omega)
  have hmul : 0 ≤ (i : Int) * (priceRangeMax - priceRangeMin).tdiv (numPoints : Int) :=
    mul_nonneg (by omega) hstep
  have hp : 0 < priceRangeMin +
      (i : Int) * (priceRangeMax - priceRangeMin).tdiv (numPoints : Int) := by omega
  rw [priceToTick_ok _ _ _ _ _ hp]
  rfl

theorem pnlPointAt_price (liquidity : Nat) (tickLower tickUpper : Int)
    (costBasis : Int) (ba qa dec : Nat) (s : Int) (priceMin priceMax : Int)
    (numPoints i : Nat) :
    (pnlPointAt liquidity tickLower tickUpper costBasis ba qa dec s priceMin
        priceMax numPoints i).price =
      priceMin + (i : Int) * (priceMax - priceMin).tdiv (numPoints : Int) := rfl

theorem pnlPointAt_phase (liquidity : Nat) (tickLower tickUpper : Int)
    (costBasis : Int) (ba qa dec : Nat) (s : Int) (priceMin priceMax : Int)
    (numPoints i : Nat) :
    (pnlPointAt liquidity tickLower tickUpper costBasis ba qa dec s priceMin
        priceMax numPoints i).phase =
      determinePhase (curveTickAt ba qa dec s priceMin priceMax numPoints i)
        tickLower tickUpper := rfl

theorem curveTickAt_mono_of_base_token0 (ba qa dec : Nat) (s : Int)
    (priceMin priceMax : Int) (numPoints : Nat) (hmin : 1 ≤ priceMin)
    (hle : priceMin ≤ priceMax) (hs : 1 ≤ s) (hs2 : s ≤ 887272)
    (hb : ba < qa) {i j : Nat} (hij : i ≤ j) :
    curveTickAt ba qa dec s priceMin priceMax numPoints i ≤
      curveTickAt ba qa dec s priceMin priceMax numPoints j := by
  unfold curveTickAt
  dsimp only
  have hbq : decide (ba < qa) = true := by simp [hb]
  have hstep : 0 ≤ (priceMax - priceMin).tdiv (numPoints : Int) :=
    Int.tdiv_nonneg (by omega) (by omega)
  have hp : priceMin + (i : Int) * (priceMax - priceMin).tdiv (numPoints : Int) ≤
      priceMin + (j : Int) * (priceMax - priceMin).tdiv (numPoints : Int) := by
    have := mul_le_mul_of_nonneg_right
      (show (i : Int) ≤ (j : Int) by exact_mod_cast hij) hstep
    omega
  apply nearestUsableTick_mono hs hs2
  apply getTickAtSqrtRatio_mono
  simp only [if_pos hb]
  exact encodeSqrtRatioX96_mono_amount1 (by omega)

theorem curveTickAt_anti_of_base_token1 (ba qa dec : Nat) (s : Int)
    (priceMin priceMax : Int) (numPoints : Nat) (hmin : 1 ≤ priceMin)
    (hle : priceMin ≤ priceMax) (hs : 1 ≤ s) (hs2 : s ≤ 887272)
    (hb : ¬ ba < qa) {i j : Nat} (hij : i ≤ j) :
    curveTickAt ba qa dec s priceMin priceMax numPoints j ≤
      curveTickAt ba qa dec s priceMin priceMax numPoints i := by
  unfold curveTickAt
  dsimp only
  have hstep : 0 ≤ (priceMax - priceMin).tdiv (numPoints : Int) :=
    Int.tdiv_nonneg (by omega) (by omega)
  have hmuli : 0 ≤ (i : Int) * (priceMax - priceMin).tdiv (numPoints : Int) :=
    mul_nonneg (by omega) hstep
  have hp : priceMin + (i : Int) * (priceMax - priceMin).tdiv (numPoints : Int) ≤
      priceMin + (j : Int) * (priceMax - priceMin).tdiv (numPoints : Int) := by
    have := mul_le_mul_of_nonneg_right
      (show (i : Int) ≤ (j : Int) by exact_mod_cast hij) hstep
    omega
  apply nearestUsableTick_mono hs hs2
  apply getTickAtSqrtRatio_mono
  simp only [if_neg hb]
  apply encodeSqrtRatioX96_anti_amount0
  · omega
  · omega

/-- C6 (amended): with `numPoints = 150`, positive prices and
`priceRangeMin < priceRangeMax`, `generatePnLCurve` returns exactly 151
points; point `i` has price `min + i * floor((max - min) / 150)`, so prices
are evenly spaced and nondecreasing, strictly increasing when
`max - min ≥ 150` (for a smaller range the step truncates to `0` and the
prices repeat; the last price can also fall short of `max` by
`(max - min) mod 150`); along the curve the phase index (below <
in-range < above) is nondecreasing when the base token is token0 and
nonincreasing when it is token1 (the usable-tick spacing being a valid one,
`1 ≤ tickSpacing ≤ 887272`). -/
theorem generatePnLCurve_spec (liquidity : Nat) (tickLower tickUpper : Int)
    (costBasis : Int) (baseTokenAddress quoteTokenAddress baseTokenDecimals : Nat)
    (tickSpacing : Int) (priceRangeMin priceRangeMax : Int)
    (hmin : 1 ≤ priceRangeMin) (hlt : priceRangeMin < priceRangeMax)
    (hs : 1 ≤ tickSpacing) (hs2 : tickSpacing ≤ 887272) :
    generatePnLCurve liquidity tickLower tickUpper costBasis baseTokenAddress
        quoteTokenAddress baseTokenDecimals tickSpacing priceRangeMin
        priceRangeMax 150 =
      .ok ((List.range 151).map (pnlPointAt liquidity tickLower tickUpper
        costBasis baseTokenAddress quoteTokenAddress baseTokenDecimals
        tickSpacing priceRangeMin priceRangeMax 150)) ∧
    ((List.range 151).map (pnlPointAt liquidity tickLower tickUpper costBasis
      baseTokenAddress quoteTokenAddress baseTokenDecimals tickSpacing
      priceRangeMin priceRangeMax 150)).length = 151 ∧
    ((List.range 151).map (pnlPointAt liquidity tickLower tickUpper costBasis
        baseTokenAddress quoteTokenAddress baseTokenDecimals tickSpacing
        priceRangeMin priceRangeMax 150)).map PnLPoint.price =
      (List.range 151).map (fun (i : Nat) => priceRangeMin +
        (i : Int) * (priceRangeMax - priceRangeMin).tdiv ((150 : Nat) : Int)) ∧
    (((List.range 151).map (pnlPointAt liquidity tickLower tickUpper costBasis
        baseTokenAddress quoteTokenAddress baseTokenDecimals tickSpacing
        priceRangeMin priceRangeMax 150)).map PnLPoint.price).Pairwise (· ≤ ·) ∧
    (150 ≤ priceRangeMax - priceRangeMin →
      (((List.range 151).map (pnlPointAt liquidity tickLower tickUpper costBasis
        baseTokenAddress quoteTokenAddress baseTokenDecimals tickSpacing
        priceRangeMin priceRangeMax 150)).map PnLPoint.price).Pairwise (· < ·)) ∧
    (baseTokenAddress < quoteTokenAddress →
      (((List.range 151).map (pnlPointAt liquidity tickLower tickUpper costBasis
        baseTokenAddress quoteTokenAddress baseTokenDecimals tickSpacing
        priceRangeMin priceRangeMax 150)).map
          (fun p => phaseIdx p.phase)).Pairwise (· ≤ ·)) ∧
    (¬ baseTokenAddress < quoteTokenAddress →
      (((List.range 151).map (pnlPointAt liquidity tickLower tickUpper costBasis
        baseTokenAddress quoteTokenAddress baseTokenDecimals tickSpacing
        priceRangeMin priceRangeMax 150)).map
          (fun p => phaseIdx p.phase)).Pairwise (fun a b => b ≤ a)) := by
  have hstep : 0 ≤ (priceRangeMax - priceRangeMin).tdiv ((150 : Nat) : Int) :=
    Int.tdiv_nonneg (by omega) (by omega)
  have hmap : ((List.range 151).map (pnlPointAt liquidity tickLower tickUpper
      costBasis baseTokenAddress quoteTokenAddress baseTokenDecimals tickSpacing
      priceRangeMin priceRangeMax 150)).map PnLPoint.price =
      (List.range 151).map (fun (i : Nat) => priceRangeMin +
        (i : Int) * (priceRangeMax - priceRangeMin).tdiv ((150 : Nat) : Int)) := by
    rw [List.map_map]
    apply List.map_congr_left
    intro i _
    exact pnlPointAt_price liquidity tickLower tickUpper costBasis
      baseTokenAddress quoteTokenAddress baseTokenDecimals tickSpacing
      priceRangeMin priceRangeMax 150 i
  have hmapPhase : ((List.range 151).map (pnlPointAt liquidity tickLower
      tickUpper costBasis baseTokenAddress quoteTokenAddress baseTokenDecimals
      tickSpacing priceRangeMin priceRangeMax 150)).map
        (fun p => phaseIdx p.phase) =
      (List.range 151).map (fun (i : Nat) => phaseIdx (determinePhase
        (curveTickAt baseTokenAddress quoteTokenAddress baseTokenDecimals
          tickSpacing priceRangeMin priceRangeMax 150 i) tickLower tickUpper)) := by
    rw [List.map_map]
    apply List.map_congr_left
    intro i _
    simp only [Function.comp_apply, pnlPointAt_phase]
  refine ⟨?_, ?_, hmap, ?_, ?_, ?_, ?_⟩
  · exact generatePnLCurve_ok liquidity tickLower tickUpper costBasis
      baseTokenAddress quoteTokenAddress baseTokenDecimals tickSpacing
      priceRangeMin priceRangeMax 150 hmin (by omega)
  · simp
  · rw [hmap, List.pairwise_map]
    apply List.Pairwise.imp ?_ (List.pairwise_lt_range 151)
    intro a b hab
    have := mul_le_mul_of_nonneg_right
      (show (a : Int) ≤ (b : Int) by exact_mod_cast le_of_lt hab) hstep
    omega
  · intro h150
    have hstep1 : 1 ≤ (priceRangeMax - priceRangeMin).tdiv ((150 : Nat) : Int) := by
      rw [Int.tdiv_eq_ediv (by omega) (by norm_num)]
      rw [Int.le_ediv_iff_mul_le (by norm_num)]
      omega
    rw [hmap, List.pairwise_map]
    apply List.Pairwise.imp ?_ (List.pairwise_lt_range 151)
    intro a b hab
    have := mul_lt_mul_of_pos_right
      (show (a : Int) < (b : Int) by exact_mod_cast hab) (by omega :
        (0:Int) < (priceRangeMax - priceRangeMin).tdiv ((150 : Nat) : Int))
    omega
  · intro hb
    rw [hmapPhase, List.pairwise_map]
    apply List.Pairwise.imp ?_ (List.pairwise_lt_range 151)
    intro a b hab
    exact determinePhase_mono tickLower tickUpper
      (curveTickAt_mono_of_base_token0 baseTokenAddress quoteTokenAddress
        baseTokenDecimals tickSpacing priceRangeMin priceRangeMax 150 hmin
        (by omega) hs hs2 hb (le_of_lt hab))
  · intro hb
    rw [hmapPhase, List.pairwise_map]
    apply List.Pairwise.imp ?_ (List.pairwise_lt_range 151)
    intro a b hab
    exact determinePhase_mono tickLower tickUpper
      (curveTickAt_anti_of_base_token1 baseTokenAddress quoteTokenAddress
        baseTokenDecimals tickSpacing priceRangeMin priceRangeMax 150 hmin
        (by omega) hs hs2 hb (le_of_lt hab))

/-- C6 counterexample: with `priceRange = [1, 2]` the price step truncates
to zero, so the 151 returned prices all equal `1`: they are not strictly
increasing and never reach `max`; and with the base token being token1
(base address 2 > quote address 1) the phase sequence moves from `above`
to `in-range` as price increases, so it is not nondecreasing. -/
theorem generatePnLCurve_counterexample :
    generatePnLCurve 0 5 10 0 1 2 0 1 1 2 150 =
      .ok ((List.range 151).map (pnlPointAt 0 5 10 0 1 2 0 1 1 2 150)) ∧
    ¬ ((((List.range 151).map (pnlPointAt 0 5 10 0 1 2 0 1 1 2 150)).map
        PnLPoint.price).Pairwise (· < ·)) ∧
    (((List.range 151).map (pnlPointAt 0 5 10 0 1 2 0 1 1 2 150)).map
        PnLPoint.price).getLast? ≠ some 2 ∧
    generatePnLCurve 0 (-200) (-50) 0 2 1 2 1 100 250 150 =
      .ok ((List.range 151).map (pnlPointAt 0 (-200) (-50) 0 2 1 2 1 100 250 150)) ∧
    ¬ ((((List.range 151).map (pnlPointAt 0 (-200) (-50) 0 2 1 2 1 100 250 150)).map
        (fun p => phaseIdx p.phase)).Pairwise (· ≤ ·)) := by
  have hstep : ((2:Int) - 1).tdiv ((150 : Nat) : Int) = 0 := by decide
  refine ⟨generatePnLCurve_ok 0 5 10 0 1 2 0 1 1 2 150 (by norm_num) (by norm_num),
    ?_, ?_, generatePnLCurve_ok 0 (-200) (-50) 0 2 1 2 1 100 250 150 (by norm_num)
      (by norm_num), ?_⟩
  · intro hpw
    rw [List.pairwise_iff_get] at hpw
    have h01 := hpw ⟨0, by simp⟩ ⟨1, by simp⟩ (Fin.mk_lt_mk.mpr (by omega))
    simp only [List.get_eq_getElem, List.getElem_map, List.getElem_range] at h01
    rw [pnlPointAt_price, pnlPointAt_price, hstep] at h01
    simp at h01
  · have hlast : (((List.range 151).map (pnlPointAt 0 5 10 0 1 2 0 1 1 2 150)).map
        PnLPoint.price).getLast? =
        some ((pnlPointAt 0 5 10 0 1 2 0 1 1 2 150 150).price) := by
      rw [List.getLast?_eq_getElem?]
      simp [List.getElem?_map, List.getElem?_range]
    rw [hlast, pnlPointAt_price, hstep]
    intro hcon
    simp at hcon
  · intro hpw
    rw [List.pairwise_iff_get] at hpw
    have h01 := hpw ⟨0, by simp⟩ ⟨1, by simp⟩ (Fin.mk_lt_mk.mpr (by omega))
    simp only [List.get_eq_getElem, List.getElem_map, List.getElem_range] at h01
    rw [pnlPointAt_phase, pnlPointAt_phase] at h01
    have ht0 : curveTickAt 2 1 2 1 100 250 150 0 = 0 := by decide
    have ht1 : curveTickAt 2 1 2 1 100 250 150 1 = -100 := by decide
    rw [ht0, ht1] at h01
    exact absurd h01 (by decide)

theorem generatePnLCurve_spec_witness :
    (generatePnLCurve 0 5 10 0 1 2 0 1 1 2 150).isOk = true ∧
    ((generatePnLCurve 0 5 10 0 1 2 0 1 1 2 150).toOption.getD []).length = 151 := by
  have h := generatePnLCurve_spec 0 5 10 0 1 2 0 1 1 2 (by norm_num) (by norm_num)
    (by norm_num) (by norm_num)
  rw [h.1]
  exact ⟨rfl, h.2.1⟩

/-- C9: a non-positive price makes `priceToSqrtRatioX96` (and therefore
`priceToTick` and `priceToClosestUsableTick`, which invoke it first) fail
with the explicit error naming the violated precondition, while every
positive price returns normally. -/
theorem priceToSqrtRatioX96_rejects_nonpositive (baseTokenAddress
    quoteTokenAddress baseTokenDecimals : Nat) (tickSpacing : Int) (price : Int) :
    (price ≤ 0 →
      priceToSqrtRatioX96 baseTokenAddress quoteTokenAddress baseTokenDecimals
          price = .error "price must be a positive bigint" ∧
      priceToTick price tickSpacing baseTokenAddress quoteTokenAddress
          baseTokenDecimals = .error "price must be a positive bigint" ∧
      priceToClosestUsableTick price tickSpacing baseTokenAddress
          quoteTokenAddress baseTokenDecimals =
        .error "price must be a positive bigint") ∧
    (0 < price → ∃ v, priceToSqrtRatioX96 baseTokenAddress quoteTokenAddress
      baseTokenDecimals price = .ok v) := by
  constructor
  · intro h
    have he : priceToSqrtRatioX96 baseTokenAddress quoteTokenAddress
        baseTokenDecimals price = .error "price must be a positive bigint" := by
      unfold priceToSqrtRatioX96
      rw [if_pos h]
    refine ⟨he, ?_, ?_⟩
    · unfold priceToTick
      rw [he]
      rfl
    · unfold priceToClosestUsableTick
      rw [he]
      rfl
  · intro h
    unfold priceToSqrtRatioX96
    rw [if_neg (by omega)]
    exact ⟨_, rfl⟩

theorem priceToSqrtRatioX96_rejects_nonpositive_witness :
    priceToSqrtRatioX96 1 2 0 (-1) = .error "price must be a positive bigint" ∧
    priceToTick (-1) 1 1 2 0 = .error "price must be a positive bigint" ∧
    priceToClosestUsableTick (-1) 1 1 2 0 =
      .error "price must be a positive bigint" ∧
    (∃ v, priceToSqrtRatioX96 1 2 0 1 = .ok v) :=
  ⟨((priceToSqrtRatioX96_rejects_nonpositive 1 2 0 1 (-1)).1 (by norm_num)).1,
   ((priceToSqrtRatioX96_rejects_nonpositive 1 2 0 1 (-1)).1 (by norm_num)).2.1,
   ((priceToSqrtRatioX96_rejects_nonpositive 1 2 0 1 (-1)).1 (by norm_num)).2.2,
   (priceToSqrtRatioX96_rejects_nonpositive 1 2 0 1 1).2 (by norm_num)⟩
